import Mathlib

/-!
# Verification of the Movie-App search/selection/persistence core

A shallow embedding of the stateful core of the `App` component
(`src/unnamed/part_000`) and of the `Search` component
(`src/src/components/ErrorMessage.jsx`, second part of the file), together
with proofs and refutations of the specified properties.

The embedding models:
* the `useState` cells of `App` (`movies`, `isLoading`, `error`, `query`,
  `selectedId`, `watched`) as one record `AppState`;
* the event handlers `handleSelectMovie`, `handleCloseMovie`,
  `handleAddWatched`, `handleDeleteWatched` as pure functions;
* the fetch effect (lines 69-115) as a transition system `step` over a
  system state `Sys` that also tracks the identity of the live (not yet
  aborted) request and the persisted `localStorage` content;
* the `try`/`catch`/`finally` body of `fetchMovies` as `fetchMoviesBody`
  (the `try` block, returning `Except`) plus `fetchComplete` (the
  `catch`/`finally` wrapper);
* `JSON.stringify`/`JSON.parse` on the watched list as an executable
  serializer `serialize` and parser `deserialize` over characters.
-/

/-- One remote movie summary, per the data model: opaque identifier,
title, year, poster URL. -/
structure SearchResult where
  imdbID : String
  title : String
  year : String
  poster : String
deriving Repr, DecidableEq

/-- Modelled from the spec: the component (`MovieDetails`) that constructs
watched records is not part of the provided sources, so the record shape
follows §3 of the spec: identifier, title, poster URL, runtime (minutes,
numeric), IMDB rating (0-10 numeric), user rating (0-10 numeric).  The
numeric fields are modelled as naturals. -/
structure WatchedRecord where
  imdbID : String
  title : String
  poster : String
  runtime : Nat
  imdbRating : Nat
  userRating : Nat
deriving Repr, DecidableEq

/-- The handler `handleSelectMovie` (lines 40-42):
`setSelectedId((selectedId) => (id === selectedId ? null : id))`. -/
def handleSelectMovie (mid : String) (sel : Option String) : Option String :=
  if sel = some mid then none else some mid

/-- The handler `handleCloseMovie` (lines 44-46): `setSelectedId(null)`. -/
def handleCloseMovie (_sel : Option String) : Option String :=
  none

/-- The handler `handleAddWatched` (lines 49-53):
`setWatched((watched) => [...watched, movie])` — an unconditional append. -/
def handleAddWatched (movie : WatchedRecord) (watched : List WatchedRecord) :
    List WatchedRecord :=
  watched ++ [movie]

/-- The handler `handleDeleteWatched` (lines 56-58):
`setWatched((watched) => watched.filter((movie) => movie.imdbID !== id))`. -/
def handleDeleteWatched (mid : String) (watched : List WatchedRecord) :
    List WatchedRecord :=
  watched.filter (fun movie => movie.imdbID != mid)

/-- The `useState` cells of `App` (lines 25-37). -/
structure AppState where
  movies : List SearchResult
  isLoading : Bool
  error : String
  query : String
  selectedId : Option String
  watched : List WatchedRecord
deriving Repr, DecidableEq

/-- How the awaited part of `fetchMovies` can complete: the `fetch` promise
rejects with an `AbortError` (the request was aborted), rejects with some
other error carrying a message, or resolves to an HTTP response with a
status (`response.ok`), a parsed body whose `Response` field may be the
string `"False"`, and a `Search` array of results. -/
inductive FetchCompletion where
  | abortError
  | networkError (msg : String)
  | httpResponse (ok : Bool) (responseFalse : Bool) (results : List SearchResult)
deriving Repr, DecidableEq

/-- What the `try` block can throw: the abort rejection, or an `Error`
with a message. -/
inductive FetchErr where
  | abortSignal
  | thrown (msg : String)
deriving Repr, DecidableEq

/-- The `try` block of `fetchMovies` (lines 74-89) after the first await:
non-ok status throws `"Something went wrong while fetching movies"`;
a body with `Response === "False"` throws `"Movie not found"`;
otherwise `setMovies(data.Search)` and `setError("")`. -/
def fetchMoviesBody (c : FetchCompletion) (a : AppState) :
    Except FetchErr AppState :=
  match c with
  | .abortError => .error .abortSignal
  | .networkError msg => .error (.thrown msg)
  | .httpResponse ok responseFalse results =>
    if ok = false then .error (.thrown "Something went wrong while fetching movies")
    else if responseFalse = true then .error (.thrown "Movie not found")
    else .ok { a with movies := results, error := "" }

/-- The `catch`/`finally` wrapper of `fetchMovies` (lines 90-97): the error
message is recorded only when the rejection is not an `AbortError`
(`if (err.name !== "AbortError") setError(err.message)`), and
`setIsLoading(false)` runs in every case. -/
def fetchComplete (c : FetchCompletion) (a : AppState) : AppState :=
  let afterCatch :=
    match fetchMoviesBody c a with
    | .ok a2 => a2
    | .error .abortSignal => a
    | .error (.thrown msg) => { a with error := msg }
  { afterCatch with isLoading := false }

/-- The synchronous prefix of `fetchMovies` (lines 75-77), run before the
first await: `setIsLoading(true); setError("")`. -/
def fetchStart (a : AppState) : AppState :=
  { a with isLoading := true, error := "" }

/-! ## Persistence: `JSON.stringify` / `JSON.parse` on the watched list

`App` persists the whole watched list on every mutation
(`localStorage.setItem("watched", JSON.stringify(watched))`, lines 61-66)
and rehydrates it once at startup
(`JSON.parse(storedValue)`, lines 34-37). -/

/-- Decimal digit characters of `n`, most significant first, as
`JSON.stringify` prints a natural number. -/
def natDigits (n : Nat) : List Char :=
  if h : n < 10 then [Char.ofNat (48 + n)]
  else natDigits (n / 10) ++ [Char.ofNat (48 + n % 10)]
termination_by n
decreasing_by exact Nat.div_lt_self (by omega) (by omega)

/-- A JSON string literal around an escape-free character sequence. -/
def quoteStr (s : List Char) : List Char :=
  '"' :: s ++ ['"']

/-- The opening brace and first key of a serialized record. -/
def keyImdbID : List Char := '\x7b' :: "\"imdbID\":".toList

def keyTitle : List Char := ',' :: "\"title\":".toList

def keyPoster : List Char := ',' :: "\"poster\":".toList

def keyRuntime : List Char := ',' :: "\"runtime\":".toList

def keyImdbRating : List Char := ',' :: "\"imdbRating\":".toList

def keyUserRating : List Char := ',' :: "\"userRating\":".toList

/-- Modelled from the spec: `JSON.stringify` of one watched record, with
the keys in the order the record is built (the builder, `MovieDetails`,
is not among the provided sources).  String fields are emitted verbatim,
which matches `JSON.stringify` exactly when they contain no character
that needs escaping (see `validString`). -/
def recordChars (r : WatchedRecord) : List Char :=
  keyImdbID ++ quoteStr r.imdbID.toList ++
  keyTitle ++ quoteStr r.title.toList ++
  keyPoster ++ quoteStr r.poster.toList ++
  keyRuntime ++ natDigits r.runtime ++
  keyImdbRating ++ natDigits r.imdbRating ++
  keyUserRating ++ natDigits r.userRating ++ ['\x7d']

/-- The comma-separated member list of a serialized array. -/
def recordsChars : List WatchedRecord → List Char
  | [] => []
  | [r] => recordChars r
  | r :: rs => recordChars r ++ ',' :: recordsChars rs

/-- Characters of `JSON.stringify` of the whole watched list. -/
def serializeChars (l : List WatchedRecord) : List Char :=
  '[' :: recordsChars l ++ [']']

/-- The persisted string `JSON.stringify(watched)` (line 63). -/
def serialize (l : List WatchedRecord) : String :=
  String.mk (serializeChars l)

/-- A string field that `JSON.stringify` emits verbatim: it contains no
quote and no backslash (the characters that would be escaped). -/
def validString (s : String) : Prop :=
  '"' ∉ s.toList ∧ '\\' ∉ s.toList

instance (s : String) : Decidable (validString s) := by
  unfold validString; infer_instance

/-- A watched record whose string fields round-trip verbatim. -/
def validRecord (r : WatchedRecord) : Prop :=
  validString r.imdbID ∧ validString r.title ∧ validString r.poster

instance (r : WatchedRecord) : Decidable (validRecord r) := by
  unfold validRecord; infer_instance

/-- Consume an expected literal prefix. -/
def expects : List Char → List Char → Option (List Char)
  | [], input => some input
  | _ :: _, [] => none
  | l :: ls, c :: cs => if c = l then expects ls cs else none

/-- Consume characters up to and including the closing quote. -/
def takeUntilQuote : List Char → Option (List Char × List Char)
  | [] => none
  | c :: cs =>
    if c = '"' then some ([], cs)
    else
      match takeUntilQuote cs with
      | some (s, rest) => some (c :: s, rest)
      | none => none

/-- Parse a JSON string literal (no escape handling: the serializer never
emits escapes for valid records). -/
def parseStr : List Char → Option (String × List Char)
  | '"' :: rest =>
    (match takeUntilQuote rest with
     | some (content, rest2) => some (String.mk content, rest2)
     | none => none)
  | _ => none

/-- Take a maximal run of decimal digits. -/
def takeDigits : List Char → List Char × List Char
  | [] => ([], [])
  | c :: cs =>
    if c.isDigit then (c :: (takeDigits cs).1, (takeDigits cs).2)
    else ([], c :: cs)

/-- The value of a digit run, most significant first, on top of `acc`. -/
def digitsVal : Nat → List Char → Nat
  | acc, [] => acc
  | acc, c :: cs => digitsVal (acc * 10 + (c.toNat - 48)) cs

/-- Parse a (nonempty) run of digits as a natural number. -/
def parseNum (input : List Char) : Option (Nat × List Char) :=
  match takeDigits input with
  | ([], _) => none
  | (ds, rest) => some (digitsVal 0 ds, rest)

/-- Parse one serialized watched record. -/
def parseRecord (input : List Char) : Option (WatchedRecord × List Char) := do
  let i1 ← expects keyImdbID input
  let (idv, i2) ← parseStr i1
  let i3 ← expects keyTitle i2
  let (tv, i4) ← parseStr i3
  let i5 ← expects keyPoster i4
  let (pv, i6) ← parseStr i5
  let i7 ← expects keyRuntime i6
  let (rtv, i8) ← parseNum i7
  let i9 ← expects keyImdbRating i8
  let (irv, i10) ← parseNum i9
  let i11 ← expects keyUserRating i10
  let (urv, i12) ← parseNum i11
  let i13 ← expects ['\x7d'] i12
  pure (⟨idv, tv, pv, rtv, irv, urv⟩, i13)

/-- Parse a comma-separated run of records up to the closing bracket,
which is consumed.  `fuel` bounds the number of records. -/
def parseRecords : Nat → List Char → Option (List WatchedRecord × List Char)
  | 0, _ => none
  | fuel + 1, input =>
    match parseRecord input with
    | none => none
    | some (r, rest) =>
      match rest with
      | ']' :: rest2 => some ([r], rest2)
      | ',' :: rest2 =>
        (match parseRecords fuel rest2 with
         | some (rs, rest3) => some (r :: rs, rest3)
         | none => none)
      | _ => none

/-- Modelled from the spec: `JSON.parse` (line 36) specialized to the
payloads this program itself writes — an array of watched records.  Any
input it cannot parse back to a whole watched list is "corrupt": on such
input `JSON.parse` (or the subsequent use of its result) fails. -/
def deserialize (s : String) : Option (List WatchedRecord) :=
  match s.toList with
  | '[' :: rest =>
    if rest = [']'] then some []
    else
      (match parseRecords rest.length rest with
       | some (rs, []) => some rs
       | _ => none)
  | _ => none

/-- The `useState(function () {...})` initializer of `watched`
(lines 34-37): read `localStorage.getItem("watched")`; a missing key or an
empty (falsy) string yields `[]`; otherwise the content is parsed, and a
parse failure is an uncaught exception (`Except.error`), not a fallback. -/
def loadInitial (stored : Option String) : Except String (List WatchedRecord) :=
  match stored with
  | none => .ok []
  | some s =>
    if s.length = 0 then .ok []
    else
      match deserialize s with
      | some l => .ok l
      | none => .error "SyntaxError"

/-! ## The fetch effect as a transition system

The effect (lines 69-115) re-runs on every `query` change.  React runs the
previous run's cleanup — `controller.abort()` (lines 110-112) — before the
new run, so issuing a new search synchronously aborts the previous
in-flight request.  An aborted request's `fetch` promise rejects with an
`AbortError` regardless of what the network later delivers, so a stale
arrival is forced through the `abortError` completion path. -/

/-- The whole system: the component state, the identity of the live
(not-aborted) in-flight request if any, a counter naming requests in the
order they are issued, and the persisted `localStorage` content under the
key `"watched"`. -/
structure Sys where
  app : AppState
  live : Option Nat
  nextId : Nat
  storage : Option String
deriving Repr, DecidableEq

/-- The events the event loop can deliver to `App`. -/
inductive Event where
  | query (q : String)
  | arrive (rid : Nat) (c : FetchCompletion)
  | select (mid : String)
  | closeDetail
  | addWatched (r : WatchedRecord)
  | deleteWatched (mid : String)
deriving Repr, DecidableEq

/-- One event-loop turn.

`query q`: the previous effect's cleanup aborts the previous request
(`live := none`), then the new effect runs: an empty query resets
`movies` and `error` and issues nothing (lines 100-104); otherwise it
closes the detail view and starts a fresh request (lines 106-107).

`arrive rid c`: completion of request `rid`.  If `rid` is still the live
request, the `try`/`catch`/`finally` of `fetchMovies` processes `c`;
a superseded request's promise has already rejected with `AbortError`,
so its completion runs the `AbortError` path.

The remaining events invoke the corresponding handlers; every `watched`
mutation re-serializes the list to storage (lines 61-66). -/
def step (e : Event) (s : Sys) : Sys :=
  match e with
  | .query q =>
    if q.length = 0 then
      { s with
        app := { s.app with query := q, movies := [], error := "" }
        live := none }
    else
      { s with
        app := fetchStart { s.app with query := q, selectedId := handleCloseMovie s.app.selectedId }
        live := some s.nextId
        nextId := s.nextId + 1 }
  | .arrive rid c =>
    if s.live = some rid then
      { s with app := fetchComplete c s.app, live := none }
    else
      { s with app := fetchComplete .abortError s.app }
  | .select mid =>
    { s with app := { s.app with selectedId := handleSelectMovie mid s.app.selectedId } }
  | .closeDetail =>
    { s with app := { s.app with selectedId := handleCloseMovie s.app.selectedId } }
  | .addWatched r =>
    let w := handleAddWatched r s.app.watched
    { s with app := { s.app with watched := w }, storage := some (serialize w) }
  | .deleteWatched mid =>
    let w := handleDeleteWatched mid s.app.watched
    { s with app := { s.app with watched := w }, storage := some (serialize w) }

/-- The state right after mount with absent storage: all `useState`
initializers (lines 25-37) with `localStorage.getItem("watched") = null`,
after the mount run of the persistence effect has written `[]` back. -/
def initSys : Sys :=
  { app :=
      { movies := []
        isLoading := false
        error := ""
        query := ""
        selectedId := none
        watched := [] }
    live := none
    nextId := 0
    storage := some (serialize []) }

/-- The states the event loop can reach from startup. -/
inductive Reachable : Sys → Prop
  | init : Reachable initSys
  | next {s : Sys} (e : Event) : Reachable s → Reachable (step e s)

/-! ## Derived render states (lines 128-136) -/

/-- Render guard `{isLoading && <Loader />}` (line 131). -/
def showLoader (a : AppState) : Bool :=
  a.isLoading

/-- Render guard `{!isLoading && !error && <MovieList ... />}` (lines 132-134). -/
def showResults (a : AppState) : Bool :=
  !a.isLoading && a.error == ""

/-- Render guard `{error && <ErrorMessage message={error} />}` (line 135). -/
def showError (a : AppState) : Bool :=
  !(a.error == "")

/-- Exactly one of three booleans is set. -/
def exactlyOne (a b c : Bool) : Prop :=
  (a = true ∧ b = false ∧ c = false) ∨
  (a = false ∧ b = true ∧ c = false) ∨
  (a = false ∧ b = false ∧ c = true)

/-! ## The `Search` component (`src/src/components/ErrorMessage.jsx`) -/

/-- The `Search` component's observable state: the controlled input value
`query1` and whether its input element is the document's active element. -/
structure SearchBox where
  query1 : String
  isActive : Bool
deriving Repr, DecidableEq

/-- The document-level `keydown` callback of `Search` (lines 19-26 of the
file): do nothing when the input is already active; on `"Enter"` focus the
input and clear the query. -/
def searchKeydown (code : String) (b : SearchBox) : SearchBox :=
  if b.isActive then b
  else if code = "Enter" then { b with query1 := "", isActive := true }
  else b

/-! ## Basic facts about the fetch transition system -/

/-- Every completion path of `fetchMovies` ends in the `finally` block,
which runs `setIsLoading(false)`. -/
theorem fetchComplete_isLoading (c : FetchCompletion) (a : AppState) :
    (fetchComplete c a).isLoading = false :=
  rfl

/-- Re-setting `isLoading` to the value it already has changes nothing. -/
theorem update_isLoading_self (a : AppState) (h : a.isLoading = false) :
    ({ a with isLoading := false } : AppState) = a := by
  cases a with
  | mk movies isLoading error query selectedId watched => subst h; rfl

/-- Unfolding `step` on an empty query (lines 100-104). -/
theorem step_query_empty (s : Sys) (q : String) (h : q.length = 0) :
    step (.query q) s =
      { s with
        app := { s.app with query := q, movies := [], error := "" }
        live := none } := by
  simp only [step, if_pos h]

/-- Unfolding `step` on a non-empty query (lines 106-107): the detail view
closes, a fresh request named `s.nextId` becomes the live one, and the
previous live request is no longer live (its controller was aborted by the
cleanup). -/
theorem step_query_issue (s : Sys) (q : String) (h : ¬ q.length = 0) :
    step (.query q) s =
      { s with
        app := fetchStart { s.app with query := q, selectedId := none }
        live := some s.nextId
        nextId := s.nextId + 1 } := by
  simp only [step, if_neg h, handleCloseMovie]

/-- Unfolding `step` on the completion of the live request. -/
theorem step_arrive_live (s : Sys) (rid : Nat) (c : FetchCompletion)
    (h : s.live = some rid) :
    step (.arrive rid c) s = { s with app := fetchComplete c s.app, live := none } := by
  simp only [step, if_pos h]

/-- Unfolding `step` on the completion of a superseded request: its `fetch`
promise rejected with `AbortError`, so the `catch` skips `setError` and
only the `finally` (`setIsLoading(false)`) acts. -/
theorem step_arrive_stale (s : Sys) (rid : Nat) (c : FetchCompletion)
    (h : ¬ s.live = some rid) :
    step (.arrive rid c) s = { s with app := { s.app with isLoading := false } } := by
  simp only [step, if_neg h]
  rfl

/-- An arrival, live or stale, always leaves `isLoading` false. -/
theorem step_arrive_isLoading (s : Sys) (rid : Nat) (c : FetchCompletion) :
    (step (.arrive rid c) s).app.isLoading = false := by
  by_cases h : s.live = some rid
  · rw [step_arrive_live s rid c h]; exact fetchComplete_isLoading c s.app
  · rw [step_arrive_stale s rid c h]

/-- C1: issuing `q1` then `q2` (both non-empty) in rapid succession, then
receiving `q2`'s response, then `q1`'s: the late completion of the
superseded request `q1` does not change the state at all (first conjunct),
and the state after `q2`'s response is exactly the outcome of running
`fetchMovies`'s completion for `q2`'s response (second conjunct) — the
stale response never overrides the newer query's outcome, because issuing
`q2` synchronously aborted `q1`'s request. -/
theorem stale_response_never_overrides (s0 : Sys) (q1 q2 : String)
    (c1 c2 : FetchCompletion) (h1 : ¬ q1.length = 0) (h2 : ¬ q2.length = 0) :
    step (.arrive s0.nextId c1)
        (step (.arrive (s0.nextId + 1) c2) (step (.query q2) (step (.query q1) s0))) =
      step (.arrive (s0.nextId + 1) c2) (step (.query q2) (step (.query q1) s0)) ∧
    (step (.arrive (s0.nextId + 1) c2) (step (.query q2) (step (.query q1) s0))).app =
      fetchComplete c2 (step (.query q2) (step (.query q1) s0)).app := by
  have e1 := step_query_issue s0 q1 h1
  have e2 := step_query_issue (step (.query q1) s0) q2 h2
  have hlive2 : (step (.query q2) (step (.query q1) s0)).live = some (s0.nextId + 1) := by
    rw [e2, e1]
  have e3 := step_arrive_live (step (.query q2) (step (.query q1) s0))
    (s0.nextId + 1) c2 hlive2
  have hstale : ¬ (step (.arrive (s0.nextId + 1) c2)
      (step (.query q2) (step (.query q1) s0))).live = some s0.nextId := by
    rw [e3]; simp
  have e4 := step_arrive_stale (step (.arrive (s0.nextId + 1) c2)
    (step (.query q2) (step (.query q1) s0))) s0.nextId c1 hstale
  have happ : (step (.arrive (s0.nextId + 1) c2)
      (step (.query q2) (step (.query q1) s0))).app.isLoading = false := by
    rw [e3]; exact fetchComplete_isLoading _ _
  constructor
  · rw [e4, update_isLoading_self _ happ]
  · rw [e3]

/-- C1 witness: a concrete rapid-succession race in which the stale
response was an apparent success and the newer one a network error. -/
theorem stale_response_never_overrides_witness :
    step (.arrive initSys.nextId (.httpResponse true false []))
        (step (.arrive (initSys.nextId + 1) (.networkError "boom"))
          (step (.query "robin") (step (.query "batman") initSys))) =
      step (.arrive (initSys.nextId + 1) (.networkError "boom"))
        (step (.query "robin") (step (.query "batman") initSys)) ∧
    (step (.arrive (initSys.nextId + 1) (.networkError "boom"))
        (step (.query "robin") (step (.query "batman") initSys))).app =
      fetchComplete (.networkError "boom")
        (step (.query "robin") (step (.query "batman") initSys)).app :=
  stale_response_never_overrides initSys "batman" "robin"
    (.httpResponse true false []) (.networkError "boom") (by decide) (by decide)

/-- C2: an empty query resets the pipeline to the idle display — the
result list becomes empty, the recorded error is cleared — and no network
request is issued: no new live request exists and the request counter does
not advance. -/
theorem empty_query_resets_to_idle (s : Sys) (q : String) (h : q.length = 0) :
    step (.query q) s =
      { s with
        app := { s.app with query := q, movies := [], error := "" }
        live := none } ∧
    (step (.query q) s).nextId = s.nextId ∧
    (step (.query q) s).live = none := by
  refine ⟨step_query_empty s q h, ?_, ?_⟩ <;> rw [step_query_empty s q h]

/-- C2 witness at the empty query from the initial state. -/
theorem empty_query_resets_to_idle_witness :
    step (.query "") initSys =
      { initSys with
        app := { initSys.app with query := "", movies := [], error := "" }
        live := none } ∧
    (step (.query "") initSys).nextId = initSys.nextId ∧
    (step (.query "") initSys).live = none :=
  empty_query_resets_to_idle initSys "" rfl

/-- C5: the completion of a request that is no longer live (superseded or
torn down: its abort signal fired) never changes the user-visible error
channel, nor the result list. -/
theorem abort_never_sets_error (s : Sys) (rid : Nat) (c : FetchCompletion)
    (h : ¬ s.live = some rid) :
    (step (.arrive rid c) s).app.error = s.app.error ∧
    (step (.arrive rid c) s).app.movies = s.app.movies ∧
    (fetchComplete .abortError s.app).error = s.app.error := by
  rw [step_arrive_stale s rid c h]
  exact ⟨rfl, rfl, rfl⟩

/-- C5 witness: a stale arrival carrying a genuine network error still
leaves the error channel untouched. -/
theorem abort_never_sets_error_witness :
    (step (.arrive 0 (.networkError "boom")) initSys).app.error = initSys.app.error ∧
    (step (.arrive 0 (.networkError "boom")) initSys).app.movies = initSys.app.movies ∧
    (fetchComplete .abortError initSys.app).error = initSys.app.error :=
  abort_never_sets_error initSys 0 (.networkError "boom") (by decide)

/-- C6: the three completion paths of a non-cancelled fetch: a non-ok HTTP
status records `"Something went wrong while fetching movies"`; an ok
response whose body has `Response === "False"` records `"Movie not
found"`; an ok response with results replaces the movie list and clears
any previously recorded error. -/
theorem fetch_outcome_cases (a : AppState) (results : List SearchResult) (b : Bool) :
    fetchComplete (.httpResponse false b results) a =
      { a with error := "Something went wrong while fetching movies", isLoading := false } ∧
    fetchComplete (.httpResponse true true results) a =
      { a with error := "Movie not found", isLoading := false } ∧
    fetchComplete (.httpResponse true false results) a =
      { a with movies := results, error := "", isLoading := false } :=
  ⟨rfl, rfl, rfl⟩

/-- A concrete watched record for counterexamples and witnesses. -/
def sampleRecord : WatchedRecord :=
  { imdbID := "tt1", title := "Batman", poster := "p1",
    runtime := 120, imdbRating := 8, userRating := 7 }

/-- C3 counterexample: adding the same record twice does NOT leave exactly
one record with that identifier — `handleAddWatched` appends
unconditionally, so the identifier occurs twice. -/
theorem add_twice_counterexample :
    ¬ ((handleAddWatched sampleRecord (handleAddWatched sampleRecord [])).countP
        (fun m => m.imdbID == sampleRecord.imdbID) = 1) := by
  decide

/-- C3 (amended): `handleAddWatched` enforces no uniqueness; adding a
record twice adds two occurrences of its identifier to whatever list it
started from. -/
theorem add_twice_duplicates (r : WatchedRecord) (w : List WatchedRecord) :
    (handleAddWatched r (handleAddWatched r w)).countP
        (fun m => m.imdbID == r.imdbID) =
      w.countP (fun m => m.imdbID == r.imdbID) + 2 := by
  simp [handleAddWatched, List.countP_append, List.countP_cons]

/-- C9: `select(id)` toggles: from `Open(id)` it closes, from any other
state it opens `id`; hence selecting twice from `Closed` ends `Closed`,
and `close()` on `Closed` is a no-op. -/
theorem select_toggle_spec (mid : String) (sel : Option String)
    (h : ¬ sel = some mid) :
    handleSelectMovie mid (some mid) = none ∧
    handleSelectMovie mid sel = some mid ∧
    handleSelectMovie mid (handleSelectMovie mid none) = none ∧
    handleCloseMovie none = none := by
  refine ⟨?_, ?_, ?_, rfl⟩ <;> simp [handleSelectMovie, h]

/-- C9 witness at a concrete id from the `Closed` state. -/
theorem select_toggle_spec_witness :
    handleSelectMovie "tt1" (some "tt1") = none ∧
    handleSelectMovie "tt1" none = some "tt1" ∧
    handleSelectMovie "tt1" (handleSelectMovie "tt1" none) = none ∧
    handleCloseMovie none = none :=
  select_toggle_spec "tt1" none (by decide)

/-- C10: an `"Enter"` keydown while the search input is not the active
element clears the query and focuses the input; while the input is active
the callback returns immediately and the state is unchanged. -/
theorem enter_keydown_spec (b : SearchBox) :
    (b.isActive = false →
      searchKeydown "Enter" b = { b with query1 := "", isActive := true }) ∧
    (b.isActive = true → searchKeydown "Enter" b = b) := by
  constructor <;> intro h <;> simp [searchKeydown, h]

/-- C10 witness: Enter pressed while the input is inactive. -/
theorem enter_keydown_spec_witness :
    searchKeydown "Enter" ⟨"batman", false⟩ = ⟨"", true⟩ :=
  (enter_keydown_spec ⟨"batman", false⟩).1 rfl

/-! ## Render-state exclusivity (C8) -/

/-- Invariant of every reachable state: while a fetch is loading, the
error channel is clear (each fetch starts with `setError("")`). -/
theorem reachable_loading_no_error {s : Sys} (h : Reachable s) :
    s.app.isLoading = true → s.app.error = "" := by
  induction h with
  | init => intro h2; cases h2
  | next e hr ih =>
    cases e with
    | query q =>
      by_cases hq : q.length = 0
      · rw [step_query_empty _ q hq]; intro _; rfl
      · rw [step_query_issue _ q hq]; intro _; rfl
    | arrive rid c =>
      rw [step_arrive_isLoading]; intro h2; cases h2
    | select mid => exact ih
    | closeDetail => exact ih
    | addWatched r => exact ih
    | deleteWatched mid => exact ih

/-- C8 counterexample: the initial state is reachable and has an empty
query, yet `showResults` is `true` (the code renders the — empty — movie
list whenever nothing is loading and no error is recorded), so the three
derived render states are not all false when the query is empty. -/
theorem empty_query_shows_results :
    Reachable initSys ∧ initSys.app.query = "" ∧ showResults initSys.app = true :=
  ⟨Reachable.init, rfl, by decide⟩

/-- C8 (amended): in every reachable state exactly one of the three
derived render states holds — also when the query is empty, where the
results branch (an empty list display) is the one that is true rather
than all three being false. -/
theorem render_states_exactly_one (s : Sys) (h : Reachable s) :
    exactlyOne (showLoader s.app) (showResults s.app) (showError s.app) := by
  have hinv := reachable_loading_no_error h
  unfold exactlyOne showLoader showResults showError
  by_cases hl : s.app.isLoading = true
  · have he := hinv hl
    left; simp [hl, he]
  · by_cases he : s.app.error = ""
    · right; left
      simp only [Bool.not_eq_true] at hl
      simp [hl, he]
    · right; right
      simp only [Bool.not_eq_true] at hl
      simp [hl, he]

/-- C8 witness at the (reachable) initial state. -/
theorem render_states_exactly_one_witness :
    exactlyOne (showLoader initSys.app) (showResults initSys.app) (showError initSys.app) :=
  render_states_exactly_one initSys Reachable.init

/-! ## Round-trip of the watched-list codec -/

theorem digitChar_toNat (n : Nat) (h : n < 10) :
    (Char.ofNat (48 + n)).toNat = 48 + n := by
  interval_cases n <;> decide

theorem digitChar_isDigit (n : Nat) (h : n < 10) :
    (Char.ofNat (48 + n)).isDigit = true := by
  interval_cases n <;> decide

theorem natDigits_ne_nil (n : Nat) : natDigits n ≠ [] := by
  rw [natDigits]
  split <;> simp

theorem natDigits_all_digits (n : Nat) : ∀ c ∈ natDigits n, c.isDigit = true := by
  induction n using Nat.strong_induction_on with
  | _ n ih =>
    rw [natDigits]
    split
    · next h =>
      intro c hc
      rw [List.mem_singleton] at hc
      subst hc
      exact digitChar_isDigit n h
    · next h =>
      intro c hc
      rw [List.mem_append] at hc
      cases hc with
      | inl hc => exact ih (n / 10) (Nat.div_lt_self (by omega) (by omega)) c hc
      | inr hc =>
        rw [List.mem_singleton] at hc
        subst hc
        exact digitChar_isDigit _ (Nat.mod_lt _ (by omega))

theorem digitsVal_nil (acc : Nat) : digitsVal acc [] = acc :=
  rfl

theorem digitsVal_cons (acc : Nat) (c : Char) (cs : List Char) :
    digitsVal acc (c :: cs) = digitsVal (acc * 10 + (c.toNat - 48)) cs :=
  rfl

theorem digitsVal_append (xs ys : List Char) :
    ∀ acc, digitsVal acc (xs ++ ys) = digitsVal (digitsVal acc xs) ys := by
  induction xs with
  | nil => intro acc; rfl
  | cons c cs ih =>
    intro acc
    rw [List.cons_append, digitsVal_cons, digitsVal_cons]
    exact ih _

theorem digitsVal_natDigits (n : Nat) :
    ∀ acc, digitsVal acc (natDigits n) = acc * 10 ^ (natDigits n).length + n := by
  induction n using Nat.strong_induction_on with
  | _ n ih =>
    intro acc
    rw [natDigits]
    split
    · next h =>
      rw [digitsVal_cons, digitChar_toNat n h, digitsVal_nil]
      simp only [List.length_singleton, pow_one]
      omega
    · next h =>
      rw [digitsVal_append, ih (n / 10) (Nat.div_lt_self (by omega) (by omega)),
        digitsVal_cons, digitChar_toNat _ (Nat.mod_lt n (by omega)), digitsVal_nil]
      simp only [List.length_append, List.length_singleton, pow_succ]
      have hsub : 48 + n % 10 - 48 = n % 10 := by omega
      rw [hsub]
      have hdm := Nat.div_add_mod n 10
      generalize (10 : Nat) ^ (natDigits (n / 10)).length = P
      ring_nf
      omega

theorem expects_cons (l : Char) (ls : List Char) (c : Char) (cs : List Char) :
    expects (l :: ls) (c :: cs) = if c = l then expects ls cs else none :=
  rfl

theorem expects_self (lit rest : List Char) :
    expects lit (lit ++ rest) = some rest := by
  induction lit with
  | nil => rfl
  | cons c cs ih => rw [List.cons_append, expects_cons, if_pos rfl, ih]

theorem takeUntilQuote_cons (c : Char) (cs : List Char) :
    takeUntilQuote (c :: cs) =
      if c = '"' then some ([], cs)
      else
        match takeUntilQuote cs with
        | some (s, rest) => some (c :: s, rest)
        | none => none :=
  rfl

theorem takeUntilQuote_run (s : List Char) (hq : '"' ∉ s) (rest : List Char) :
    takeUntilQuote (s ++ '"' :: rest) = some (s, rest) := by
  induction s with
  | nil => rw [List.nil_append, takeUntilQuote_cons, if_pos rfl]
  | cons c cs ih =>
    have hc : ¬ c = '"' := by
      intro h
      exact hq (by simp [h])
    have ih2 := ih (fun hm => hq (List.mem_cons_of_mem c hm))
    rw [List.cons_append, takeUntilQuote_cons, if_neg hc, ih2]

theorem parseStr_quote_cons (rest : List Char) :
    parseStr ('"' :: rest) =
      match takeUntilQuote rest with
      | some (content, rest2) => some (String.mk content, rest2)
      | none => none :=
  rfl

theorem parseStr_quoted (s : List Char) (hq : '"' ∉ s) (rest : List Char) :
    parseStr (quoteStr s ++ rest) = some (String.mk s, rest) := by
  have harr : quoteStr s ++ rest = '"' :: (s ++ '"' :: rest) := by
    simp [quoteStr]
  rw [harr, parseStr_quote_cons, takeUntilQuote_run s hq rest]

theorem takeDigits_cons (c : Char) (cs : List Char) :
    takeDigits (c :: cs) =
      if c.isDigit then (c :: (takeDigits cs).1, (takeDigits cs).2)
      else ([], c :: cs) :=
  rfl

theorem takeDigits_run (ds : List Char) (hds : ∀ c ∈ ds, c.isDigit = true)
    (d : Char) (hd : d.isDigit = false) (rest : List Char) :
    takeDigits (ds ++ d :: rest) = (ds, d :: rest) := by
  induction ds with
  | nil => rw [List.nil_append, takeDigits_cons, if_neg (by simp [hd])]
  | cons c cs ih =>
    have hc : c.isDigit = true := hds c (by simp)
    have ih2 := ih (fun x hx => hds x (by simp [hx]))
    rw [List.cons_append, takeDigits_cons, if_pos hc, ih2]

theorem parseNum_digits (n : Nat) (d : Char) (hd : d.isDigit = false)
    (rest : List Char) :
    parseNum (natDigits n ++ d :: rest) = some (n, d :: rest) := by
  have hval : digitsVal 0 (natDigits n) = n := by
    rw [digitsVal_natDigits]
    simp
  have hdig := natDigits_all_digits n
  rcases hnd : natDigits n with _ | ⟨c, cs⟩
  · exact absurd hnd (natDigits_ne_nil n)
  · rw [hnd] at hval hdig
    unfold parseNum
    rw [takeDigits_run (c :: cs) hdig d hd rest]
    show some (digitsVal 0 (c :: cs), d :: rest) = some (n, d :: rest)
    rw [hval]

theorem mk_toList (t : String) : String.mk t.toList = t :=
  rfl

theorem expects_close_brace (x : List Char) :
    expects ['\x7d'] ('\x7d' :: x) = some x := by
  rw [← List.singleton_append]
  exact expects_self _ _

theorem parseNum_then_key (n : Nat) (k : List Char) (c : Char) (ks : List Char)
    (hk : k = c :: ks) (hc : c.isDigit = false) (x : List Char) :
    parseNum (natDigits n ++ (k ++ x)) = some (n, k ++ x) := by
  subst hk
  rw [List.cons_append]
  exact parseNum_digits n c hc (ks ++ x)

theorem option_some_bind {α β : Type} (a : α) (f : α → Option β) :
    (some a : Option α) >>= f = f a :=
  rfl

theorem parseRecord_serial (r : WatchedRecord) (h : validRecord r)
    (tail : List Char) :
    parseRecord (recordChars r ++ tail) = some (r, tail) := by
  obtain ⟨⟨hq1, _⟩, ⟨hq2, _⟩, ⟨hq3, _⟩⟩ := h
  unfold parseRecord recordChars
  simp only [List.append_assoc, List.cons_append, List.singleton_append,
    List.nil_append]
  rw [expects_self]
  simp only [option_some_bind]
  rw [parseStr_quoted _ hq1]
  simp only [option_some_bind]
  rw [expects_self]
  simp only [option_some_bind]
  rw [parseStr_quoted _ hq2]
  simp only [option_some_bind]
  rw [expects_self]
  simp only [option_some_bind]
  rw [parseStr_quoted _ hq3]
  simp only [option_some_bind]
  rw [expects_self]
  simp only [option_some_bind]
  rw [parseNum_then_key r.runtime keyImdbRating ','
    ("\"imdbRating\":".toList) rfl (by decide)]
  simp only [option_some_bind]
  rw [expects_self]
  simp only [option_some_bind]
  rw [parseNum_then_key r.imdbRating keyUserRating ','
    ("\"userRating\":".toList) rfl (by decide)]
  simp only [option_some_bind]
  rw [expects_self]
  simp only [option_some_bind]
  rw [parseNum_digits r.userRating '\x7d' (by decide) tail]
  simp only [option_some_bind]
  rw [expects_close_brace]
  simp only [option_some_bind, mk_toList]
  rfl

theorem toList_mk (cs : List Char) : (String.mk cs).toList = cs :=
  rfl

theorem recordChars_ne_nil (r : WatchedRecord) : recordChars r ≠ [] := by
  unfold recordChars keyImdbID
  simp

theorem recordsChars_cons_cons (r r2 : WatchedRecord) (rs : List WatchedRecord) :
    recordsChars (r :: r2 :: rs) = recordChars r ++ ',' :: recordsChars (r2 :: rs) :=
  rfl

theorem recordChars_length_pos (r : WatchedRecord) : 1 ≤ (recordChars r).length := by
  rcases hc : recordChars r with _ | ⟨c, cs⟩
  · exact absurd hc (recordChars_ne_nil r)
  · simp

theorem length_le_recordsChars (l : List WatchedRecord) :
    l ≠ [] → l.length ≤ (recordsChars l).length := by
  induction l with
  | nil => intro h; exact absurd rfl h
  | cons r rs ih =>
    intro _
    cases rs with
    | nil =>
      show 1 ≤ (recordsChars [r]).length
      exact recordChars_length_pos r
    | cons r2 rs2 =>
      rw [recordsChars_cons_cons]
      have h1 := recordChars_length_pos r
      have h2 := ih (by simp)
      simp only [List.length_append, List.length_cons] at h2 ⊢
      omega

theorem parseRecords_succ_eq (f : Nat) (input : List Char) :
    parseRecords (f + 1) input =
      match parseRecord input with
      | none => none
      | some (r, rest) =>
        match rest with
        | ']' :: rest2 => some ([r], rest2)
        | ',' :: rest2 =>
          (match parseRecords f rest2 with
           | some (rs, rest3) => some (r :: rs, rest3)
           | none => none)
        | _ => none :=
  rfl

theorem parseRecords_last (f : Nat) (input : List Char) (r : WatchedRecord)
    (rest2 : List Char) (h : parseRecord input = some (r, ']' :: rest2)) :
    parseRecords (f + 1) input = some ([r], rest2) := by
  rw [parseRecords_succ_eq, h]
  rfl

theorem parseRecords_step (f : Nat) (input : List Char) (r : WatchedRecord)
    (rest2 : List Char) (h : parseRecord input = some (r, ',' :: rest2)) :
    parseRecords (f + 1) input =
      match parseRecords f rest2 with
      | some (rs, rest3) => some (r :: rs, rest3)
      | none => none := by
  rw [parseRecords_succ_eq, h]
  rfl

theorem parseRecords_serial :
    ∀ (l : List WatchedRecord) (fuel : Nat),
      (∀ x ∈ l, validRecord x) → l ≠ [] → l.length ≤ fuel →
      ∀ tailc, parseRecords fuel (recordsChars l ++ ']' :: tailc) = some (l, tailc) := by
  intro l
  induction l with
  | nil => intro fuel _ hne _ _; exact absurd rfl hne
  | cons r rs ih =>
    intro fuel hl _ hfuel tailc
    obtain ⟨f, rfl⟩ : ∃ f, fuel = f + 1 := ⟨fuel - 1, by simp at hfuel; omega⟩
    cases rs with
    | nil =>
      rw [show recordsChars [r] = recordChars r from rfl]
      exact parseRecords_last f _ r tailc
        (parseRecord_serial r (hl r (by simp)) (']' :: tailc))
    | cons r2 rs2 =>
      rw [recordsChars_cons_cons, List.append_assoc, List.cons_append]
      rw [parseRecords_step f _ r (recordsChars (r2 :: rs2) ++ ']' :: tailc)
        (parseRecord_serial r (hl r (by simp)) _)]
      rw [ih f (fun x hx => hl x (by simp [hx])) (by simp)
        (by simp at hfuel ⊢; omega) tailc]

theorem deserialize_bracket (rest : List Char) :
    deserialize (String.mk ('[' :: rest)) =
      if rest = [']'] then some []
      else
        match parseRecords rest.length rest with
        | some (rs, []) => some rs
        | _ => none :=
  rfl

/-- The codec round-trip on whole watched lists with valid records. -/
theorem deserialize_serialize (l : List WatchedRecord)
    (hl : ∀ x ∈ l, validRecord x) :
    deserialize (serialize l) = some l := by
  cases l with
  | nil => rfl
  | cons r rs =>
    rw [show serialize (r :: rs) = String.mk ('[' :: (recordsChars (r :: rs) ++ [']'])) from rfl,
      deserialize_bracket]
    have hrc : recordsChars (r :: rs) ≠ [] := by
      cases rs with
      | nil => exact recordChars_ne_nil r
      | cons r2 rs2 =>
        rw [recordsChars_cons_cons]
        simp
    have hne : ¬ (recordsChars (r :: rs) ++ [']'] = [']']) := by
      intro hh
      apply hrc
      have hlen := congrArg List.length hh
      simp only [List.length_append, List.length_cons, List.length_nil] at hlen
      exact List.length_eq_zero.mp (by omega)
    rw [if_neg hne]
    rw [show (recordsChars (r :: rs) ++ [']'] : List Char) =
      recordsChars (r :: rs) ++ ']' :: [] from rfl]
    rw [parseRecords_serial (r :: rs) _ hl (by simp) ?hf []]
    case hf =>
      have h1 := length_le_recordsChars (r :: rs) (by simp)
      simp only [List.length_append, List.length_cons] at h1 ⊢
      omega

theorem loadInitial_some (s : String) :
    loadInitial (some s) =
      if s.length = 0 then .ok []
      else
        match deserialize s with
        | some l => .ok l
        | none => .error "SyntaxError" :=
  rfl

/-- C4 counterexample: with corrupt (non-deserializable) non-empty storage
content `"oops"` under the `"watched"` key, the startup load fails with an
exception instead of falling back to the empty collection —
`JSON.parse(storedValue)` is called with no `try`/`catch` around it. -/
theorem corrupt_storage_load_fails :
    loadInitial (some "oops") = .error "SyntaxError" ∧
    ∀ l : List WatchedRecord, ¬ loadInitial (some "oops") = .ok l := by
  constructor
  · rfl
  · intro l hl
    rw [show loadInitial (some "oops") = .error "SyntaxError" from rfl] at hl
    exact Except.noConfusion hl

/-- C4 (amended): the startup load initializes from storage and falls back
to the empty collection only when storage is absent or the stored value is
falsy (the empty string); non-empty content that does not deserialize
makes the load throw instead of falling back. -/
theorem load_initial_amended (s : String) (hs : ¬ s.length = 0)
    (hbad : deserialize s = none) :
    loadInitial none = .ok [] ∧
    loadInitial (some "") = .ok [] ∧
    loadInitial (some s) = .error "SyntaxError" := by
  refine ⟨rfl, rfl, ?_⟩
  rw [loadInitial_some, if_neg hs, hbad]

/-- C4 witness at the corrupt content `"oops"`. -/
theorem load_initial_amended_witness :
    loadInitial none = .ok [] ∧
    loadInitial (some "") = .ok [] ∧
    loadInitial (some "oops") = .error "SyntaxError" :=
  load_initial_amended "oops" (by decide) rfl

/-- C7: deserialization inverts serialization on every watched list of
valid records, and concretely: after `add(r1); add(r2)` from a fresh
start, the persisted storage re-loads as `[r1, r2]` in insertion order. -/
theorem watched_roundtrip (l : List WatchedRecord) (hl : ∀ x ∈ l, validRecord x)
    (r1 r2 : WatchedRecord) (h1 : validRecord r1) (h2 : validRecord r2) :
    deserialize (serialize l) = some l ∧
    loadInitial (step (.addWatched r2) (step (.addWatched r1) initSys)).storage =
      .ok [r1, r2] := by
  refine ⟨deserialize_serialize l hl, ?_⟩
  have hw : (step (.addWatched r2) (step (.addWatched r1) initSys)).storage =
      some (serialize [r1, r2]) := rfl
  rw [hw, loadInitial_some]
  have hlen : ¬ (serialize [r1, r2]).length = 0 := by
    rw [show (serialize [r1, r2]).length = (serializeChars [r1, r2]).length from rfl]
    simp [serializeChars]
  rw [if_neg hlen, deserialize_serialize [r1, r2] ?hv]
  case hv =>
    intro x hx
    simp at hx
    rcases hx with rfl | rfl
    exacts [h1, h2]

/-- A second concrete watched record. -/
def recA : WatchedRecord :=
  { imdbID := "tt2", title := "Inception", poster := "p2",
    runtime := 148, imdbRating := 9, userRating := 9 }

/-- A third concrete watched record. -/
def recB : WatchedRecord :=
  { imdbID := "tt3", title := "Up", poster := "p3",
    runtime := 96, imdbRating := 8, userRating := 10 }

/-- C7 witness at concrete records. -/
theorem watched_roundtrip_witness :
    deserialize (serialize [recA]) = some [recA] ∧
    loadInitial (step (.addWatched recB) (step (.addWatched recA) initSys)).storage =
      .ok [recA, recB] :=
  watched_roundtrip [recA] (by decide) recA recB (by decide) (by decide)
